import Mathlib

/-!
Verification of the AcadPlanner course store and index calculator.

The development shallowly embeds the course-planning logic of the
application: the `Course` record type, the pure weighted-average
calculator `calcIRA`, the validation chain `validateCourse`, and the
store mutations `addCourse`, `update` and `remove`.  Grades and credit
hours are embedded as rationals (the source manipulates JavaScript
numbers; the claims under study are about exact arithmetic).  The random
id generator is modelled by passing the freshly generated id as an
explicit argument.
-/

namespace AcadPlanner

/-- Course status, matching the three string literals of the source:
`"Cursada"` (completed), `"Em andamento"` (in progress), `"A cursar"`
(planned). -/
inductive Status where
  | cursada
  | emAndamento
  | aCursar
deriving DecidableEq

/-- A course record.  `nota` is `none` when the grade is the empty
string `""` in the source, `some g` when it is the number `g`. -/
structure Course where
  id : String
  nome : String
  ch : ℚ
  nota : Option ℚ
  periodo : String
  status : Status
deriving DecidableEq

/-- The record `\x7b...novo, id: fresh\x7d`: a copy of the course with its id
replaced. -/
def Course.withId (c : Course) (fresh : String) : Course :=
  ⟨fresh, c.nome, c.ch, c.nota, c.periodo, c.status⟩

/-- A course qualifies for the index when its status is not planned and
its grade is set (the filter `c.status !== "A cursar" && c.nota !== ""`). -/
def qualifies (c : Course) : Bool :=
  decide (c.status ≠ Status.aCursar) && decide (c.nota ≠ none)

/-- Weighted average of grades by credit hours over the qualifying
records; 0 when the qualifying credit hours sum to 0. -/
def calcIRA (courses : List Course) : ℚ :=
  let concl := courses.filter qualifies
  let somaP := concl.foldl (fun acc c => acc + c.nota.getD 0 * c.ch) 0
  let somaCH := concl.foldl (fun acc c => acc + c.ch) 0
  if somaCH = 0 then 0 else somaP / somaCH

/-- Validation message for an empty name. -/
def msgNome : String := "Nome da disciplina é obrigatório"

/-- Validation message for a non-positive credit-hours value. -/
def msgCh : String := "Carga horária deve ser maior que zero"

/-- Validation message for a missing or out-of-range grade on a
completed course. -/
def msgNota : String := "Nota deve estar entre 0 e 10 para disciplinas cursadas"

/-- Validation message for a malformed term. -/
def msgPeriodo : String := "Período deve estar no formato AAAA.S (ex: 2025.1)"

/-- JavaScript `String.prototype.trim`, modelled directly on the
character list so that it is kernel-computable: drop whitespace from
both ends. -/
def jsTrim (s : String) : String :=
  String.mk (((s.data.dropWhile Char.isWhitespace).reverse.dropWhile
    Char.isWhitespace).reverse)

/-- The term pattern of the source regex: four digits, a dot, then the
character 1 or 2. -/
def matchesTerm (s : String) : Bool :=
  match s.data with
  | [y1, y2, y3, y4, d, t] =>
      y1.isDigit && y2.isDigit && y3.isDigit && y4.isDigit &&
      d == '.' && (t == '1' || t == '2')
  | _ => false

/-- The validation chain of the source, returning the notification
message of the first failing check, or `none` on success.  The grade
check mirrors `course.nota === "" || Number(course.nota) < 0 ||
Number(course.nota) > 10`; `Number("")` is 0, so `Option.getD 0` gives
the same outcome as the short-circuit. -/
def validateCourse (course : Course) : Option String :=
  if jsTrim course.nome = "" then some msgNome
  else if course.ch ≤ 0 then some msgCh
  else if course.status = Status.cursada ∧
      (course.nota = none ∨ course.nota.getD 0 < 0 ∨ 10 < course.nota.getD 0) then
    some msgNota
  else if matchesTerm course.periodo then none
  else some msgPeriodo

/-- The three seeded example records; the randomly generated ids are
passed in as parameters. -/
def seedData (i1 i2 i3 : String) : List Course :=
  [⟨i1, "Química Inorgânica (128h)", 128, some 7, "2025.1", Status.cursada⟩,
   ⟨i2, "Química Analítica (CLAE)", 64, some 8, "2025.2", Status.emAndamento⟩,
   ⟨i3, "Termodinâmica de Processos", 64, none, "2026.1", Status.aCursar⟩]

/-- The `addCourse` handler.  On validation failure it returns without
touching the collection, the error notification having been emitted;
on success it prepends a copy of the draft carrying a freshly generated
id.  The generated id is the `fresh` parameter; the outcome notification
is returned as the second component (`none` on success). -/
def addCourse (fresh : String) (novo : Course) (courses : List Course) :
    List Course × Option String :=
  match validateCourse novo with
  | some msg => (courses, some msg)
  | none => (novo.withId fresh :: courses, none)

/-- A `Partial<Course>` value: each field is present or absent. -/
structure CoursePatch where
  id : Option String
  nome : Option String
  ch : Option ℚ
  nota : Option (Option ℚ)
  periodo : Option String
  status : Option Status
deriving DecidableEq

/-- The empty patch `\x7b\x7d`. -/
def CoursePatch.empty : CoursePatch :=
  ⟨none, none, none, none, none, none⟩

/-- The object spread `\x7b...c, ...patch\x7d`: fields present in the patch
override the course's fields, absent fields keep the old values. -/
def mergePatch (c : Course) (p : CoursePatch) : Course :=
  ⟨p.id.getD c.id, p.nome.getD c.nome, p.ch.getD c.ch,
   p.nota.getD c.nota, p.periodo.getD c.periodo, p.status.getD c.status⟩

/-- Outcome of the `update` handler.  `crash` models an uncaught
JavaScript `TypeError` (a method call on `undefined`); the collection is
not modified in that case because `setCourses` is never reached. -/
inductive UpdateOutcome where
  | crash
  | rejected (msg : String)
  | success (courses : List Course)
deriving DecidableEq

/-- Grade check of `validateCourse` on the spread `\x7b...undefined,
...patch\x7d`: an absent `nota` field is `undefined`, and
`undefined === ""` is false while `Number(undefined)` is `NaN`, whose
comparisons with 0 and 10 are both false, so an absent grade passes;
an explicitly empty grade fails; a present numeric grade is
range-checked. -/
def spreadNotaBad : Option (Option ℚ) → Bool
  | none => false
  | some none => true
  | some (some g) => decide (g < 0) || decide (10 < g)

/-- Credit-hours check on the spread: `undefined <= 0` is false in
JavaScript (`NaN` comparison), so an absent `ch` field passes. -/
def spreadChBad : Option ℚ → Bool
  | none => false
  | some q => decide (q ≤ 0)

/-- `validateCourse` applied to `\x7b...undefined, ...patch\x7d as Course`,
the object built by `update` when no record has the requested id.
Fields absent from the patch are `undefined`.  Returns `none` when the
run raises a `TypeError` (`undefined.trim()` or `undefined.match()`),
`some (some msg)` when a check fails with message `msg`, and
`some none` when every check passes. -/
def validateSpread (p : CoursePatch) : Option (Option String) :=
  match p.nome with
  | none => none
  | some nome =>
    if jsTrim nome = "" then some (some msgNome)
    else if spreadChBad p.ch then some (some msgCh)
    else if p.status = some Status.cursada ∧ spreadNotaBad p.nota then
      some (some msgNota)
    else
      match p.periodo with
      | none => none
      | some per => if matchesTerm per then some none else some (some msgPeriodo)

/-- The `update` handler: look up the record by id, spread the patch
over it, revalidate, and on success map the replacement over the
collection.  When the id is absent, `courses.find` yields `undefined`
and the spread produces an object whose missing fields are `undefined`;
validating it either throws (modelled by `crash`) or runs to completion,
and in the completing case the subsequent `map` replaces nothing (no
record has the id), so the collection is unchanged while the success
notification still fires. -/
def update (id : String) (p : CoursePatch) (courses : List Course) :
    UpdateOutcome :=
  match courses.find? (fun c => c.id == id) with
  | some c =>
      let merged := mergePatch c p
      match validateCourse merged with
      | some msg => UpdateOutcome.rejected msg
      | none =>
          UpdateOutcome.success
            (courses.map fun x => if x.id == id then merged else x)
  | none =>
      match validateSpread p with
      | none => UpdateOutcome.crash
      | some (some msg) => UpdateOutcome.rejected msg
      | some none => UpdateOutcome.success courses

/-- The collection after an `update` event: only a successful update
replaces the list; a rejected or crashing update leaves it as it was. -/
def updateState (id : String) (p : CoursePatch) (courses : List Course) :
    List Course :=
  match update id p courses with
  | UpdateOutcome.success l => l
  | _ => courses

/-- The `remove` handler: keep the records whose id differs. -/
def remove (id : String) (courses : List Course) : List Course :=
  courses.filter (fun c => c.id != id)

/-- The collection states reachable from the seed through the three
store mutations; `i1 i2 i3` are the random ids of the seed records. -/
inductive Reachable (i1 i2 i3 : String) : List Course → Prop where
  | seed : Reachable i1 i2 i3 (seedData i1 i2 i3)
  | step_add (fresh : String) (novo : Course) (s : List Course) :
      Reachable i1 i2 i3 s → Reachable i1 i2 i3 (addCourse fresh novo s).1
  | step_update (id : String) (p : CoursePatch) (s : List Course) :
      Reachable i1 i2 i3 s → Reachable i1 i2 i3 (updateState id p s)
  | step_remove (id : String) (s : List Course) :
      Reachable i1 i2 i3 s → Reachable i1 i2 i3 (remove id s)

/-- Rule 1 of the specification: the name is non-empty after trimming. -/
def rule1 (c : Course) : Bool :=
  !(jsTrim c.nome = "")

/-- Rule 2 of the specification: credit hours are strictly positive. -/
def rule2 (c : Course) : Bool :=
  decide (0 < c.ch)

/-- Rule 3 of the specification: a completed course has a grade, and the
grade lies in [0, 10]. -/
def rule3 (c : Course) : Bool :=
  match c.status, c.nota with
  | Status.cursada, none => false
  | Status.cursada, some g => decide (0 ≤ g) && decide (g ≤ 10)
  | _, _ => true

/-- Rule 4 of the specification: the term matches the year-dot-semester
pattern. -/
def rule4 (c : Course) : Bool :=
  matchesTerm c.periodo

/-- The specification's ordered rule list: the first violated rule
determines the message; later rules are not consulted. -/
def firstViolation (c : Course) : Option String :=
  if !rule1 c then some msgNome
  else if !rule2 c then some msgCh
  else if !rule3 c then some msgNota
  else if !rule4 c then some msgPeriodo
  else none

theorem foldl_add_eq (f : Course → ℚ) (l : List Course) :
    ∀ a : ℚ, l.foldl (fun acc c => acc + f c) a = a + (l.map f).sum := by
  induction l with
  | nil => intro a; simp
  | cons c t ih => intro a; simp [ih, add_assoc]

theorem calcIRA_eq_sums (courses : List Course) :
    calcIRA courses =
      if ((courses.filter qualifies).map Course.ch).sum = 0 then 0
      else
        ((courses.filter qualifies).map (fun c => c.nota.getD 0 * c.ch)).sum /
          ((courses.filter qualifies).map Course.ch).sum := by
  simp only [calcIRA]
  rw [foldl_add_eq (fun c => c.nota.getD 0 * c.ch), foldl_add_eq Course.ch]
  simp

/-- C1: over a collection with at least one qualifying record (and the
qualifying records carrying positive credit hours, as the data-model
invariant provides), `calcIRA` is the credit-hour-weighted average of
the grades over exactly the qualifying subset, and it is invariant
under permutation of the collection. -/
theorem calcIRA_weighted_average (courses : List Course)
    (hpos : ∀ c ∈ courses.filter qualifies, 0 < c.ch)
    (hne : courses.filter qualifies ≠ []) :
    calcIRA courses =
      ((courses.filter qualifies).map (fun c => c.nota.getD 0 * c.ch)).sum /
        ((courses.filter qualifies).map Course.ch).sum ∧
      ∀ l : List Course, courses.Perm l → calcIRA l = calcIRA courses := by
  have hsum : 0 < ((courses.filter qualifies).map Course.ch).sum := by
    apply List.sum_pos
    · intro x hx
      rcases List.mem_map.mp hx with ⟨c, hc, rfl⟩
      exact hpos c hc
    · simpa using hne
  constructor
  · rw [calcIRA_eq_sums, if_neg (ne_of_gt hsum)]
  · intro l hperm
    have hfilter := hperm.filter qualifies
    rw [calcIRA_eq_sums, calcIRA_eq_sums,
      ← (hfilter.map (fun c => c.nota.getD 0 * c.ch)).sum_eq,
      ← (hfilter.map Course.ch).sum_eq]

/-- Witness for C1 at a one-element collection. -/
theorem calcIRA_weighted_average_witness :
    calcIRA [⟨"w1", "Física I", 64, some 8, "2025.1", Status.cursada⟩] =
      (([(⟨"w1", "Física I", 64, some 8, "2025.1", Status.cursada⟩ : Course)].filter
          qualifies).map (fun c => c.nota.getD 0 * c.ch)).sum /
        (([(⟨"w1", "Física I", 64, some 8, "2025.1", Status.cursada⟩ : Course)].filter
          qualifies).map Course.ch).sum ∧
      ∀ l : List Course,
        List.Perm [(⟨"w1", "Física I", 64, some 8, "2025.1", Status.cursada⟩ : Course)] l →
          calcIRA l = calcIRA [⟨"w1", "Física I", 64, some 8, "2025.1", Status.cursada⟩] :=
  calcIRA_weighted_average _ (by decide) (by decide)

/-- C2: `calcIRA` is total and never divides by zero: it returns 0 on
the empty collection, on any collection whose records are all planned or
ungraded, and more generally whenever the qualifying credit hours sum
to 0. -/
theorem calcIRA_zero_cases :
    calcIRA [] = 0 ∧
      (∀ courses : List Course,
        (∀ c ∈ courses, c.status = Status.aCursar ∨ c.nota = none) →
          calcIRA courses = 0) ∧
      ∀ courses : List Course,
        ((courses.filter qualifies).map Course.ch).sum = 0 → calcIRA courses = 0 := by
  refine ⟨by decide, ?_, ?_⟩
  · intro courses h
    have hf : courses.filter qualifies = [] := by
      rw [List.filter_eq_nil_iff]
      intro c hc
      rcases h c hc with h1 | h1 <;> simp [qualifies, h1]
    rw [calcIRA_eq_sums, hf]
    simp
  · intro courses h
    rw [calcIRA_eq_sums, if_pos h]

/-- Witness for C2 at a collection holding one planned ungraded record. -/
theorem calcIRA_zero_cases_witness :
    calcIRA [⟨"w2", "Termodinâmica de Processos", 64, none, "2026.1", Status.aCursar⟩] = 0 :=
  calcIRA_zero_cases.2.1 _ (by decide)

theorem term_if_flip (c : Course) :
    (if matchesTerm c.periodo = true then (none : Option String) else some msgPeriodo) =
      if matchesTerm c.periodo = false then some msgPeriodo else none := by
  cases hmt : matchesTerm c.periodo <;> simp

/-- C3: validation is exactly the specification's ordered rule list —
name, then credit hours, then the completed-grade rule, then the term
pattern — with the first violated rule determining the outcome and each
rule carrying its own distinct message. -/
theorem validateCourse_first_violation :
    (∀ c : Course, validateCourse c = firstViolation c) ∧
      msgNome ≠ msgCh ∧ msgNome ≠ msgNota ∧ msgNome ≠ msgPeriodo ∧
      msgCh ≠ msgNota ∧ msgCh ≠ msgPeriodo ∧ msgNota ≠ msgPeriodo := by
  refine ⟨?_, by decide, by decide, by decide, by decide, by decide, by decide⟩
  intro c
  by_cases h1 : jsTrim c.nome = ""
  · simp [validateCourse, firstViolation, rule1, h1]
  · by_cases h2 : c.ch ≤ 0
    · simp [validateCourse, firstViolation, rule1, rule2, h1, h2, not_lt.mpr h2]
    · have h2' : (0 : ℚ) < c.ch := not_le.mp h2
      rcases hst : c.status with _ | _ | _
      · rcases hn : c.nota with _ | g
        · simp [validateCourse, firstViolation, rule1, rule2, rule3, rule4, h1, h2, h2',
            hst, hn]
        · by_cases h3 : g < 0 ∨ 10 < g
          · have h3' : ¬ (0 ≤ g ∧ g ≤ 10) := by
              rcases h3 with h | h
              · exact fun hc => absurd hc.1 (not_le.mpr h)
              · exact fun hc => absurd hc.2 (not_le.mpr h)
            rcases h3 with h | h <;>
              simp_all [validateCourse, firstViolation, rule1, rule2, rule3, rule4,
                not_le.mp, not_lt]
          · push_neg at h3
            have hg1 : ¬ g < 0 := not_lt.mpr h3.1
            have hg2 : ¬ 10 < g := not_lt.mpr h3.2
            simp [validateCourse, firstViolation, rule1, rule2, rule3, rule4, h1, h2, h2',
              hst, hn, h3.1, h3.2, hg1, hg2, term_if_flip c]
      · simp [validateCourse, firstViolation, rule1, rule2, rule3, rule4, h1, h2, h2', hst,
          term_if_flip c]
      · simp [validateCourse, firstViolation, rule1, rule2, rule3, rule4, h1, h2, h2', hst,
          term_if_flip c]

/-- C4: `addCourse` either validates the draft and prepends it with the
freshly generated id (which, the generator being fresh, differs from the
draft's own id), or reports the validation message and leaves the
collection untouched. -/
theorem addCourse_spec (fresh : String) (novo : Course) (courses : List Course) :
    (validateCourse novo = none →
        addCourse fresh novo courses = (novo.withId fresh :: courses, none) ∧
          (novo.withId fresh).id = fresh ∧
          (fresh ≠ novo.id → (novo.withId fresh).id ≠ novo.id)) ∧
      ∀ msg, validateCourse novo = some msg →
        addCourse fresh novo courses = (courses, some msg) := by
  constructor
  · intro h
    refine ⟨?_, rfl, fun hne => hne⟩
    unfold addCourse
    rw [h]
  · intro msg h
    unfold addCourse
    rw [h]

/-- Witness for C4 at a valid draft and the empty collection. -/
theorem addCourse_spec_witness :
    addCourse "f1" (⟨"d1", "Física I", 64, some 8, "2025.1", Status.cursada⟩ : Course) [] =
      ((⟨"d1", "Física I", 64, some 8, "2025.1", Status.cursada⟩ : Course).withId "f1" ::
        [], none) ∧
      ((⟨"d1", "Física I", 64, some 8, "2025.1", Status.cursada⟩ : Course).withId "f1").id =
        "f1" ∧
      ("f1" ≠ "d1" →
        ((⟨"d1", "Física I", 64, some 8, "2025.1", Status.cursada⟩ : Course).withId
          "f1").id ≠ "d1") :=
  (addCourse_spec "f1" _ []).1 (by decide)

/-- C7: `remove` deletes exactly the records carrying the requested id;
on an absent id it is a no-op returning the collection unchanged, and it
has no error outcome at all. -/
theorem remove_spec (id : String) (courses : List Course) :
    ((∀ c ∈ courses, c.id ≠ id) → remove id courses = courses) ∧
      ∀ c : Course, c ∈ remove id courses ↔ c ∈ courses ∧ c.id ≠ id := by
  constructor
  · intro h
    apply List.filter_eq_self.mpr
    intro c hc
    simpa using h c hc
  · intro c
    simp [remove, List.mem_filter, bne_iff_ne]

/-- Witness for C7 at an absent id. -/
theorem remove_spec_witness :
    remove "zz" [(⟨"r1", "Cálculo II", 64, some 6, "2025.1", Status.cursada⟩ : Course)] =
      [⟨"r1", "Cálculo II", 64, some 6, "2025.1", Status.cursada⟩] :=
  (remove_spec "zz" _).1 (by decide)

/-- C8: adding a valid draft under a genuinely fresh id and then
removing that id restores the collection exactly. -/
theorem add_remove_roundtrip (fresh : String) (novo : Course) (courses : List Course)
    (hval : validateCourse novo = none)
    (hfresh : ∀ c ∈ courses, c.id ≠ fresh) :
    remove fresh (addCourse fresh novo courses).1 = courses := by
  unfold addCourse
  rw [hval]
  show remove fresh (novo.withId fresh :: courses) = courses
  unfold remove
  rw [List.filter_cons]
  simp only [Course.withId, bne_self_eq_false, if_false, Bool.false_eq_true, ite_false]
  apply List.filter_eq_self.mpr
  intro c hc
  simpa using hfresh c hc

/-- Witness for C8 at a singleton collection. -/
theorem add_remove_roundtrip_witness :
    remove "f2"
      (addCourse "f2" (⟨"d2", "Física I", 64, some 8, "2025.1", Status.cursada⟩ : Course)
        [⟨"r2", "Cálculo II", 64, some 6, "2025.1", Status.cursada⟩]).1 =
      [⟨"r2", "Cálculo II", 64, some 6, "2025.1", Status.cursada⟩] :=
  add_remove_roundtrip "f2" _ _ (by decide) (by decide)

theorem addCourse_eq_ok (fresh : String) (novo : Course) (courses : List Course)
    (h : validateCourse novo = none) :
    addCourse fresh novo courses = (novo.withId fresh :: courses, none) := by
  unfold addCourse
  rw [h]

theorem addCourse_eq_err (fresh : String) (novo : Course) (courses : List Course)
    (msg : String) (h : validateCourse novo = some msg) :
    addCourse fresh novo courses = (courses, some msg) := by
  unfold addCourse
  rw [h]

theorem update_eq_found (id : String) (p : CoursePatch) (courses : List Course)
    (c : Course) (hfind : courses.find? (fun x => x.id == id) = some c) :
    update id p courses =
      match validateCourse (mergePatch c p) with
      | some msg => UpdateOutcome.rejected msg
      | none =>
          UpdateOutcome.success
            (courses.map fun x => if x.id == id then mergePatch c p else x) := by
  unfold update
  rw [hfind]

theorem update_eq_missing (id : String) (p : CoursePatch) (courses : List Course)
    (hfind : courses.find? (fun x => x.id == id) = none) :
    update id p courses =
      match validateSpread p with
      | none => UpdateOutcome.crash
      | some (some msg) => UpdateOutcome.rejected msg
      | some none => UpdateOutcome.success courses := by
  unfold update
  rw [hfind]

/-- C5: code bug — on an id absent from the collection, `update` does
not produce a not-found failure: with the empty patch the spread object
has an `undefined` name and `undefined.trim()` raises a `TypeError`,
while with a fully populated valid patch every check passes, the map
replaces nothing, and the handler reports success on the unchanged
collection. -/
theorem update_missing_id_misbehaves :
    update "zzz" CoursePatch.empty (seedData "a" "b" "c") = UpdateOutcome.crash ∧
      update "zzz"
        (⟨some "q", some "Qualquer", some 64, some (some 5), some "2025.1",
          some Status.cursada⟩ : CoursePatch)
        (seedData "a" "b" "c") =
        UpdateOutcome.success (seedData "a" "b" "c") := by
  constructor <;> decide

theorem map_eq_self_of_ne (id : String) (m : Course) (l : List Course)
    (h : ∀ y ∈ l, (y.id == id) = false) :
    (l.map fun x => if x.id == id then m else x) = l := by
  induction l with
  | nil => simp
  | cons x t ih =>
    have hx := h x (List.mem_cons_self x t)
    rw [List.map_cons, ih fun y hy => h y (List.mem_cons_of_mem x hy)]
    simp [hx]

theorem find_nodup_split (id : String) (courses : List Course) (c : Course)
    (hfind : courses.find? (fun x => x.id == id) = some c)
    (hnodup : (courses.map Course.id).Nodup) :
    ∃ pre post, courses = pre ++ c :: post ∧ c.id = id ∧
      ∀ m : Course,
        (courses.map fun x => if x.id == id then m else x) = pre ++ m :: post := by
  induction courses with
  | nil => simp [List.find?] at hfind
  | cons x t ih =>
    rw [List.map_cons, List.nodup_cons] at hnodup
    by_cases hx : (x.id == id) = true
    · simp only [List.find?_cons, hx] at hfind
      obtain rfl : x = c := by injection hfind
      refine ⟨[], t, rfl, by simpa using hx, ?_⟩
      intro m
      rw [List.map_cons]
      simp only [hx, if_true, List.nil_append]
      congr 1
      apply map_eq_self_of_ne
      intro y hy
      by_contra hc
      have hy' : (y.id == id) = true := by
        cases hyb : (y.id == id) with
        | true => rfl
        | false => exact absurd hyb hc
      have : x.id ∈ t.map Course.id := by
        refine List.mem_map.mpr ⟨y, hy, ?_⟩
        have e1 : y.id = id := by simpa using hy'
        have e2 : x.id = id := by simpa using hx
        rw [e1, e2]
      exact absurd this hnodup.1
    · have hx' : (x.id == id) = false := by
        cases hxb : (x.id == id) with
        | true => exact absurd hxb hx
        | false => rfl
      simp only [List.find?_cons, hx'] at hfind
      obtain ⟨pre, post, heq, hcid, hmap⟩ := ih hfind hnodup.2
      refine ⟨x :: pre, post, by rw [heq, List.cons_append], hcid, ?_⟩
      intro m
      rw [List.map_cons, hmap m, List.cons_append]
      simp [hx']

/-- C6: for an id present in an id-unique collection, `update` spreads
the patch over the found record (absent fields keep their values — on
the empty patch the merge is the identity), revalidates the merged
record, and on success replaces exactly that record in place, leaving
every other record and the ordering unchanged; on validation failure it
rejects with the message and performs no mutation. -/
theorem update_present_spec (id : String) (p : CoursePatch) (courses : List Course)
    (c : Course)
    (hfind : courses.find? (fun x => x.id == id) = some c)
    (hnodup : (courses.map Course.id).Nodup) :
    (validateCourse (mergePatch c p) = none →
        ∃ pre post, courses = pre ++ c :: post ∧
          update id p courses =
            UpdateOutcome.success (pre ++ mergePatch c p :: post)) ∧
      (∀ msg, validateCourse (mergePatch c p) = some msg →
        update id p courses = UpdateOutcome.rejected msg) ∧
      mergePatch c CoursePatch.empty = c := by
  obtain ⟨pre, post, heq, hcid, hmap⟩ := find_nodup_split id courses c hfind hnodup
  refine ⟨?_, ?_, rfl⟩
  · intro hval
    refine ⟨pre, post, heq, ?_⟩
    rw [update_eq_found id p courses c hfind, hval, hmap (mergePatch c p)]
  · intro msg hval
    rw [update_eq_found id p courses c hfind, hval]

/-- Witness for C6: patching the grade of the second of two records. -/
theorem update_present_spec_witness :
    ∃ pre post,
      [(⟨"u1", "Física I", 64, some 8, "2025.1", Status.cursada⟩ : Course),
        ⟨"u2", "Cálculo II", 64, some 6, "2025.1", Status.cursada⟩] =
        pre ++ (⟨"u2", "Cálculo II", 64, some 6, "2025.1", Status.cursada⟩ : Course) :: post ∧
      update "u2" (⟨none, none, none, some (some 9), none, none⟩ : CoursePatch)
          [(⟨"u1", "Física I", 64, some 8, "2025.1", Status.cursada⟩ : Course),
            ⟨"u2", "Cálculo II", 64, some 6, "2025.1", Status.cursada⟩] =
        UpdateOutcome.success
          (pre ++
            mergePatch (⟨"u2", "Cálculo II", 64, some 6, "2025.1", Status.cursada⟩ : Course)
              (⟨none, none, none, some (some 9), none, none⟩ : CoursePatch) :: post) :=
  (update_present_spec "u2" (⟨none, none, none, some (some 9), none, none⟩ : CoursePatch)
      [(⟨"u1", "Física I", 64, some 8, "2025.1", Status.cursada⟩ : Course),
        ⟨"u2", "Cálculo II", 64, some 6, "2025.1", Status.cursada⟩]
      (⟨"u2", "Cálculo II", 64, some 6, "2025.1", Status.cursada⟩ : Course)
      (by decide) (by decide)).1 (by decide)

theorem validateCourse_none_ch_pos (c : Course) (h : validateCourse c = none) :
    0 < c.ch := by
  unfold validateCourse at h
  split_ifs at h with h1 h2 h3 h4
  all_goals exact not_le.mp h2

theorem update_success_members (id : String) (p : CoursePatch) (s l : List Course)
    (h : update id p s = UpdateOutcome.success l) :
    ∀ c ∈ l, c ∈ s ∨ validateCourse c = none := by
  cases hfind : s.find? (fun x => x.id == id) with
  | some c0 =>
    rw [update_eq_found id p s c0 hfind] at h
    cases hval : validateCourse (mergePatch c0 p) with
    | some msg => rw [hval] at h; cases h
    | none =>
      rw [hval] at h
      injection h with h'
      subst h'
      intro c hc
      rcases List.mem_map.mp hc with ⟨x, hx, rfl⟩
      by_cases hxid : (x.id == id) = true
      · right
        simpa [hxid] using hval
      · left
        simpa [hxid] using hx
  | none =>
    rw [update_eq_missing id p s hfind] at h
    cases hvs : validateSpread p with
    | none => rw [hvs] at h; cases h
    | some o =>
      cases o with
      | none =>
        rw [hvs] at h
        injection h with h'
        subst h'
        intro c hc
        exact Or.inl hc
      | some msg => rw [hvs] at h; cases h

/-- C9 (amended): in every collection state reachable from the seed by
the add/update/remove handlers, every record's credit hours are
positive.  Integrality, by contrast, is not an invariant (see the
counterexample): validation only checks `ch > 0`. -/
theorem reachable_creditHours_pos (i1 i2 i3 : String) (s : List Course)
    (h : Reachable i1 i2 i3 s) : ∀ c ∈ s, 0 < c.ch := by
  induction h with
  | seed =>
    intro c hc
    simp only [seedData, List.mem_cons, List.not_mem_nil, or_false] at hc
    rcases hc with rfl | rfl | rfl <;> norm_num
  | step_add fresh novo t ht ih =>
    intro c hc
    cases hval : validateCourse novo with
    | some msg =>
      rw [addCourse_eq_err fresh novo t msg hval] at hc
      exact ih c hc
    | none =>
      rw [addCourse_eq_ok fresh novo t hval] at hc
      rcases List.mem_cons.mp hc with rfl | hc'
      · exact validateCourse_none_ch_pos novo hval
      · exact ih c hc'
  | step_update id p t ht ih =>
    intro c hc
    unfold updateState at hc
    cases hu : update id p t with
    | success l =>
      rw [hu] at hc
      rcases update_success_members id p t l hu c hc with hmem | hval
      · exact ih c hmem
      · exact validateCourse_none_ch_pos c hval
    | crash =>
      rw [hu] at hc
      exact ih c hc
    | rejected msg =>
      rw [hu] at hc
      exact ih c hc
  | step_remove id t ht ih =>
    intro c hc
    exact ih c (List.mem_of_mem_filter hc)

/-- Witness for C9 (amended) at the first record of the seed state. -/
theorem reachable_creditHours_pos_witness :
    0 < (⟨"s1", "Química Inorgânica (128h)", 128, some 7, "2025.1",
      Status.cursada⟩ : Course).ch :=
  reachable_creditHours_pos "s1" "s2" "s3" _ Reachable.seed _ (by decide)

/-- C9 counterexample: a reachable state carrying a record whose credit
hours are the non-integer 1/2 — validation accepts any positive credit
hours, so the claim that reachable credit hours are always positive
integers is false. -/
theorem reachable_fractional_creditHours :
    Reachable "s1" "s2" "s3"
      (addCourse "f9" (⟨"d9", "Meia Carga", 1 / 2, none, "2025.1", Status.aCursar⟩ : Course)
        (seedData "s1" "s2" "s3")).1 ∧
      ¬ ∀ c ∈ (addCourse "f9"
            (⟨"d9", "Meia Carga", 1 / 2, none, "2025.1", Status.aCursar⟩ : Course)
            (seedData "s1" "s2" "s3")).1,
          0 < c.ch ∧ ∃ n : ℤ, c.ch = (n : ℚ) := by
  have hv : validateCourse
      (⟨"d9", "Meia Carga", 1 / 2, none, "2025.1", Status.aCursar⟩ : Course) = none := by
    unfold validateCourse
    rw [if_neg (by decide), if_neg (by norm_num), if_neg (by simp), if_pos (by decide)]
  constructor
  · exact Reachable.step_add "f9" _ _ Reachable.seed
  · intro hall
    have hmem :
        (⟨"d9", "Meia Carga", 1 / 2, none, "2025.1", Status.aCursar⟩ : Course).withId "f9" ∈
          (addCourse "f9"
            (⟨"d9", "Meia Carga", 1 / 2, none, "2025.1", Status.aCursar⟩ : Course)
            (seedData "s1" "s2" "s3")).1 := by
      rw [addCourse_eq_ok _ _ _ hv]
      exact List.mem_cons_self _ _
    obtain ⟨-, n, hn⟩ := hall _ hmem
    have hn' : (1 / 2 : ℚ) = (n : ℚ) := hn
    have h2 : (2 : ℚ) * (n : ℚ) = 1 := by
      field_simp at hn'
      linarith
    have h3 : (2 * n : ℤ) = 1 := by exact_mod_cast h2
    omega

/-- C10: the grade range-check is guarded by the completed status: for
any non-completed course the validation outcome does not depend on the
grade at all, so an in-progress draft with grade 50 is accepted,
committed by `addCourse`, qualifies for the index, and drives `calcIRA`
outside [0, 10]. -/
theorem grade_unchecked_unless_completed :
    (∀ (c : Course) (g : Option ℚ), c.status ≠ Status.cursada →
        validateCourse ⟨c.id, c.nome, c.ch, g, c.periodo, c.status⟩ = validateCourse c) ∧
      validateCourse
          (⟨"w10", "Projeto", 64, some 50, "2025.1", Status.emAndamento⟩ : Course) = none ∧
      (addCourse "f10"
            (⟨"w10", "Projeto", 64, some 50, "2025.1", Status.emAndamento⟩ : Course) []).1 =
        [(⟨"w10", "Projeto", 64, some 50, "2025.1", Status.emAndamento⟩ : Course).withId
          "f10"] ∧
      qualifies
          ((⟨"w10", "Projeto", 64, some 50, "2025.1", Status.emAndamento⟩ : Course).withId
            "f10") = true ∧
      calcIRA
          [(⟨"w10", "Projeto", 64, some 50, "2025.1", Status.emAndamento⟩ : Course).withId
            "f10"] = 50 ∧
      ¬ calcIRA
          [(⟨"w10", "Projeto", 64, some 50, "2025.1", Status.emAndamento⟩ : Course).withId
            "f10"] ≤ 10 := by
  refine ⟨?_, by decide, by decide, by decide, ?_, ?_⟩
  · intro c g hst
    by_cases h1 : jsTrim c.nome = "" <;> by_cases h2 : c.ch ≤ 0 <;>
      simp [validateCourse, h1, h2, hst]
  · simp [calcIRA, qualifies, Course.withId]
  · have h50 : calcIRA
        [(⟨"w10", "Projeto", 64, some 50, "2025.1", Status.emAndamento⟩ : Course).withId
          "f10"] = 50 := by
      simp [calcIRA, qualifies, Course.withId]
    rw [h50]
    norm_num

/-- Witness for C10: swapping an absurd grade in and out of a planned
course does not change the validation outcome. -/
theorem grade_unchecked_unless_completed_witness :
    validateCourse (⟨"cw", "Optativa", 32, some 42, "2025.2", Status.aCursar⟩ : Course) =
      validateCourse (⟨"cw", "Optativa", 32, none, "2025.2", Status.aCursar⟩ : Course) :=
  grade_unchecked_unless_completed.1
    (⟨"cw", "Optativa", 32, none, "2025.2", Status.aCursar⟩ : Course) (some 42) (by decide)

end AcadPlanner
